import Mathlib

/-!
Shallow embedding of the HTTP-FLV load tester (`src/main.py`): the
`StreamMetrics` accumulator, the FLV header validator, the per-chunk
metrics update, the session status gate, the timeout configuration and
the statistics reporter, together with theorems settling the spec claims.
Timestamps (Python `time.time()` floats) are modelled as rationals; byte
strings as lists of byte values.
-/

namespace FLVTester

/-- Mirror of the Python `StreamMetrics` dataclass: counters default to 0,
`last_packet_time` uses 0 as the "absent" sentinel, and `__post_init__`
sets both sample lists to empty. -/
structure StreamMetrics where
  total_bytes : Nat
  packet_count : Nat
  start_time : ℚ
  last_packet_time : ℚ
  bitrates : List ℚ
  latencies : List ℚ
deriving DecidableEq, Repr

/-- Construction `StreamMetrics(start_time=...)` with the dataclass defaults. -/
def StreamMetrics.init (start : ℚ) : StreamMetrics :=
  { total_bytes := 0
    packet_count := 0
    start_time := start
    last_packet_time := 0
    bitrates := []
    latencies := [] }

/-- The fixed 3-byte ASCII signature `b'FLV'` checked at `data[:3]`. -/
def flvSignature : List Nat := [70, 76, 86]

/-- Bytes 5..8 of the header interpreted as a big-endian unsigned 32-bit
integer (`struct.unpack('>I', data[5:9])`); surfaced only for logging. -/
def flv_header_size (data : List Nat) : Nat :=
  data.getD 5 0 * 16777216 + data.getD 6 0 * 65536 + data.getD 7 0 * 256 + data.getD 8 0

/-- Mirror of `FLVLoadTester.parse_flv_header`: inputs shorter than 9 bytes
return `false`; otherwise the result is `true` exactly when the first three
bytes equal the FLV signature.  The version byte, flags byte and header-size
field are only logged and impose no constraint.  The surrounding
`try/except` can never fire on the operations performed, so the Python
function returns a boolean on every input. -/
def parse_flv_header (data : List Nat) : Bool :=
  if data.length < 9 then false
  else if data.take 3 ≠ flvSignature then false
  else true

/-- Mirror of `FLVLoadTester.process_flv_packets` for one chunk of
`dataLen` bytes observed at `current_time`: counters are bumped
unconditionally; when `last_packet_time > 0` the inter-arrival gap is
appended to `latencies` (with no sign check), and additionally to
`bitrates` as `(dataLen*8)/gap` only when the gap is strictly positive;
finally `last_packet_time` is set to `current_time`. -/
def process_flv_packets (dataLen : Nat) (current_time : ℚ) (m : StreamMetrics) : StreamMetrics :=
  let m1 : StreamMetrics :=
    { m with total_bytes := m.total_bytes + dataLen, packet_count := m.packet_count + 1 }
  let m2 : StreamMetrics :=
    if 0 < m.last_packet_time then
      { m1 with latencies := m1.latencies ++ [current_time - m.last_packet_time] }
    else m1
  let m3 : StreamMetrics :=
    if 0 < m.last_packet_time ∧ 0 < current_time - m.last_packet_time then
      { m2 with bitrates :=
          m2.bitrates ++ [(dataLen * 8 : ℚ) / (current_time - m.last_packet_time)] }
    else m2
  { m3 with last_packet_time := current_time }

/-- A chunk as fed to the accumulator: its byte length paired with the
wall-clock arrival time sampled by `time.time()` inside
`process_flv_packets`. -/
abbrev Chunk := Nat × ℚ

/-- Feeding a sequence of chunks to one accumulator, in arrival order. -/
def record_chunks (m : StreamMetrics) (chunks : List Chunk) : StreamMetrics :=
  chunks.foldl (fun acc c => process_flv_packets c.1 c.2 acc) m

/-- Boolean test that consecutive inter-arrival gaps along a timestamp list
are all strictly positive (`t_next - t > 0`, matching the code's
`time_diff > 0` test). -/
def gapsPositive : List ℚ → Bool
  | [] => true
  | [_] => true
  | a :: b :: rest => decide (0 < b - a) && gapsPositive (b :: rest)

/-- Arrival timestamps of a chunk sequence. -/
def timesOf (chunks : List Chunk) : List ℚ := chunks.map Prod.snd

/-- Mirror of the status gate and read loop of `FLVLoadTester.client_session`
after the connection is established: the accumulator is created with the
session start time; if the response status is not exactly 200 the session
returns before the read loop, recording nothing; otherwise every chunk the
loop reads is fed to `process_flv_packets`.  `chunks` is the sequence of
chunks the loop actually reads before end-of-stream, error or stop. -/
def client_session (status : Nat) (chunks : List Chunk) (start : ℚ) : StreamMetrics :=
  let m := StreamMetrics.init start
  if status ≠ 200 then m
  else record_chunks m chunks

/-- Mirror of the `aiohttp.ClientTimeout` keyword fields used by
`client_session`; `none` is Python `None`, meaning unbounded. -/
structure ClientTimeoutCfg where
  total : Option ℚ
  connect : Option ℚ
  sock_read : Option ℚ
deriving DecidableEq, Repr

/-- The exact timeout configuration built at line 96 of `src/main.py`:
`aiohttp.ClientTimeout(total=None, connect=10)`, which leaves the
per-read timeout `sock_read` at its default `None`. -/
def session_timeout : ClientTimeoutCfg :=
  { total := none, connect := some 10, sock_read := none }

/-- Arithmetic mean as computed by `statistics.mean` on a nonempty list:
the sum divided by the length. -/
def listMean (l : List ℚ) : ℚ := l.sum / l.length

/-- Python `max` over a nonempty list of samples. -/
def listMax (l : List ℚ) : ℚ := l.foldl max (l.headD 0)

/-- The per-client block logged by `print_statistics`: the quantities the
log lines are formatted from (the MB, Mbps and millisecond scalings are
pure presentation).  `latency_stats` is `none` when the latency list is
empty, matching the `if metrics.latencies:` guard. -/
structure SessionReport where
  client_id : Nat
  total_bytes : Nat
  mbps : ℚ
  packet_count : Nat
  duration : ℚ
  latency_stats : Option (ℚ × ℚ)
deriving DecidableEq, Repr

/-- The overall block logged at the end of `print_statistics`; the two
averages are `none` when the corresponding concatenated sample list is
empty, matching the `if all_bitrates:` / `if all_latencies:` guards. -/
structure OverallReport where
  total_clients : Nat
  total_bytes : Nat
  total_packets : Nat
  avg_bitrate : Option ℚ
  avg_latency : Option ℚ
deriving DecidableEq, Repr

/-- The full report produced by one `print_statistics` invocation. -/
structure Report where
  sessions : List SessionReport
  overall : OverallReport
deriving DecidableEq, Repr

/-- The per-client computation inside the reporting loop: duration is
`last_packet_time - start_time` when a packet was seen (0 otherwise), and
the average bitrate guards against a zero duration. -/
def session_report (cid : Nat) (m : StreamMetrics) : SessionReport :=
  let duration : ℚ := if 0 < m.last_packet_time then m.last_packet_time - m.start_time else 0
  let mbps : ℚ := if 0 < duration then (m.total_bytes * 8 : ℚ) / (1024 * 1024 * duration) else 0
  { client_id := cid
    total_bytes := m.total_bytes
    mbps := mbps
    packet_count := m.packet_count
    duration := duration
    latency_stats :=
      if m.latencies.isEmpty then none
      else some (listMean m.latencies, listMax m.latencies) }

/-- The loop state of `print_statistics`: the four running accumulators,
the per-session report lines emitted so far, and the client-metrics
entries after the loop body has visited them (the body only reads the
metrics, so each entry is passed through unchanged). -/
structure ReportLoopAcc where
  total_bytes : Nat
  total_packets : Nat
  all_bitrates : List ℚ
  all_latencies : List ℚ
  sessions : List SessionReport
  seen : List (Nat × StreamMetrics)
deriving Repr

/-- One iteration of the `for client_id, metrics in self.client_metrics.items()`
loop: log the session block, add the counters to the totals, and extend
`all_bitrates` / `all_latencies` with this session's sample lists. -/
def report_loop_step (acc : ReportLoopAcc) (p : Nat × StreamMetrics) : ReportLoopAcc :=
  { total_bytes := acc.total_bytes + p.2.total_bytes
    total_packets := acc.total_packets + p.2.packet_count
    all_bitrates := acc.all_bitrates ++ p.2.bitrates
    all_latencies := acc.all_latencies ++ p.2.latencies
    sessions := acc.sessions ++ [session_report p.1 p.2]
    seen := acc.seen ++ [p] }

/-- Mirror of `FLVLoadTester.print_statistics` as a state-passing function:
it receives the frozen client-metrics map (as an association list in
iteration order) and returns the report together with the post-invocation
client-metrics state rebuilt by the loop. -/
def print_statistics (num_clients : Nat) (client_metrics : List (Nat × StreamMetrics)) :
    Report × List (Nat × StreamMetrics) :=
  let acc := client_metrics.foldl report_loop_step ⟨0, 0, [], [], [], []⟩
  (⟨acc.sessions,
    { total_clients := num_clients
      total_bytes := acc.total_bytes
      total_packets := acc.total_packets
      avg_bitrate := if acc.all_bitrates.isEmpty then none else some (listMean acc.all_bitrates)
      avg_latency := if acc.all_latencies.isEmpty then none else some (listMean acc.all_latencies) }⟩,
   acc.seen)

/-- Written from the spec's words, for the refinement claim about the
overall summary: concatenate all sessions' `bitrates` sequences and report
their mean, with `none` as the safe outcome when the concatenation is
empty. -/
def specOverallAvgBitrate (client_metrics : List (Nat × StreamMetrics)) : Option ℚ :=
  let all := (client_metrics.map fun p => p.2.bitrates).flatten
  if all.isEmpty then none else some (all.sum / all.length)

/-- Written from the spec's words, for the refinement claim about the
overall summary: concatenate all sessions' `latencies` sequences and report
their mean, with `none` as the safe outcome when the concatenation is
empty. -/
def specOverallAvgLatency (client_metrics : List (Nat × StreamMetrics)) : Option ℚ :=
  let all := (client_metrics.map fun p => p.2.latencies).flatten
  if all.isEmpty then none else some (all.sum / all.length)

/-- Normal form of one `process_flv_packets` step: counters are bumped
unconditionally, the latency append is guarded only by the presence of a
previous packet, the bitrate append additionally by a strictly positive
gap, and `last_packet_time` becomes the current time. -/
theorem process_flv_packets_eq (dataLen : Nat) (t : ℚ) (m : StreamMetrics) :
    process_flv_packets dataLen t m =
      { total_bytes := m.total_bytes + dataLen
        packet_count := m.packet_count + 1
        start_time := m.start_time
        last_packet_time := t
        bitrates :=
          if 0 < m.last_packet_time ∧ 0 < t - m.last_packet_time then
            m.bitrates ++ [(dataLen * 8 : ℚ) / (t - m.last_packet_time)]
          else m.bitrates
        latencies :=
          if 0 < m.last_packet_time then m.latencies ++ [t - m.last_packet_time]
          else m.latencies } := by
  unfold process_flv_packets
  split_ifs with h₁ h₂ <;> simp_all

theorem process_total_bytes (n : Nat) (t : ℚ) (m : StreamMetrics) :
    (process_flv_packets n t m).total_bytes = m.total_bytes + n := by
  rw [process_flv_packets_eq]

theorem process_packet_count (n : Nat) (t : ℚ) (m : StreamMetrics) :
    (process_flv_packets n t m).packet_count = m.packet_count + 1 := by
  rw [process_flv_packets_eq]

theorem process_last_packet_time (n : Nat) (t : ℚ) (m : StreamMetrics) :
    (process_flv_packets n t m).last_packet_time = t := by
  rw [process_flv_packets_eq]

theorem process_latencies (n : Nat) (t : ℚ) (m : StreamMetrics) :
    (process_flv_packets n t m).latencies =
      if 0 < m.last_packet_time then m.latencies ++ [t - m.last_packet_time]
      else m.latencies := by
  rw [process_flv_packets_eq]

theorem process_bitrates (n : Nat) (t : ℚ) (m : StreamMetrics) :
    (process_flv_packets n t m).bitrates =
      if 0 < m.last_packet_time ∧ 0 < t - m.last_packet_time then
        m.bitrates ++ [(n * 8 : ℚ) / (t - m.last_packet_time)]
      else m.bitrates := by
  rw [process_flv_packets_eq]

theorem record_chunks_nil (m : StreamMetrics) : record_chunks m [] = m := rfl

theorem record_chunks_cons (m : StreamMetrics) (c : Chunk) (rest : List Chunk) :
    record_chunks m (c :: rest) = record_chunks (process_flv_packets c.1 c.2 m) rest := rfl

/-- `total_bytes` after a chunk sequence is the old value plus the sum of
the chunk sizes, with no condition on the timestamps. -/
theorem record_chunks_total_bytes (chunks : List Chunk) (m : StreamMetrics) :
    (record_chunks m chunks).total_bytes = m.total_bytes + (chunks.map Prod.fst).sum := by
  induction chunks generalizing m with
  | nil => simp [record_chunks_nil]
  | cons c rest ih =>
    rw [record_chunks_cons, ih, process_flv_packets_eq]
    simp [Nat.add_assoc]

/-- `packet_count` after a chunk sequence is the old value plus the number
of chunks, with no condition on the timestamps. -/
theorem record_chunks_packet_count (chunks : List Chunk) (m : StreamMetrics) :
    (record_chunks m chunks).packet_count = m.packet_count + chunks.length := by
  induction chunks generalizing m with
  | nil => simp [record_chunks_nil]
  | cons c rest ih =>
    rw [record_chunks_cons, ih, process_flv_packets_eq]
    simp
    omega

/-- C2 (counterexample): the claim says an input shorter than 9 bytes fails
with a `MalformedHeader` error distinct from the boolean validity result.
In the code, `parse_flv_header` returns the boolean `False` for a short
input (line 46 of `src/main.py`), the very same outcome it returns for a
full-length header whose signature mismatches, so no distinct error
outcome exists: the empty input and a 9-byte `XXX...` header are
indistinguishable by the function's result. -/
theorem short_header_same_outcome_as_bad_signature :
    ([] : List Nat).length < 9 ∧ 9 ≤ ([88, 88, 88, 0, 0, 0, 0, 0, 0] : List Nat).length ∧
    parse_flv_header [] = parse_flv_header [88, 88, 88, 0, 0, 0, 0, 0, 0] := by decide

/-- C2 (amended): every input shorter than 9 bytes makes `parse_flv_header`
return the boolean `false` — the same invalid verdict as a signature
mismatch — rather than a distinct `MalformedHeader` error. -/
theorem parse_flv_header_short_false (data : List Nat) (h : data.length < 9) :
    parse_flv_header data = false := by
  simp [parse_flv_header, h]

/-- Witness for the amended C2 at the empty input. -/
theorem parse_flv_header_short_false_witness : parse_flv_header [] = false :=
  parse_flv_header_short_false [] (by decide)

/-- C6: the validator is a pure function of the 9-byte prefix whose result
depends only on the 3-byte signature: the reference header validates true,
any input of at least 9 bytes with a mismatched signature validates false,
and two inputs of at least 9 bytes agreeing on their first 3 bytes always
validate identically (so version, flags and header-size bytes impose no
constraint). -/
theorem parse_flv_header_signature_only :
    parse_flv_header [70, 76, 86, 1, 0, 0, 0, 0, 9] = true ∧
    (∀ d : List Nat, 9 ≤ d.length → d.take 3 ≠ flvSignature → parse_flv_header d = false) ∧
    (∀ d₁ d₂ : List Nat, 9 ≤ d₁.length → 9 ≤ d₂.length → d₁.take 3 = d₂.take 3 →
      parse_flv_header d₁ = parse_flv_header d₂) := by
  refine ⟨by decide, ?_, ?_⟩
  · intro d hlen hsig
    simp [parse_flv_header, Nat.not_lt.2 hlen, hsig]
  · intro d₁ d₂ h₁ h₂ heq
    simp [parse_flv_header, Nat.not_lt.2 h₁, Nat.not_lt.2 h₂, heq]

/-- Witness for C6: a header with arbitrary version, flags and size bytes
validates exactly like the reference header (hence true), and a 9-byte
input with signature `XXX` validates false. -/
theorem parse_flv_header_signature_only_witness :
    parse_flv_header [70, 76, 86, 255, 7, 222, 173, 190, 239] = true ∧
    parse_flv_header [88, 88, 88, 0, 0, 0, 0, 0, 0] = false := by
  constructor
  · have h := parse_flv_header_signature_only.2.2
      [70, 76, 86, 255, 7, 222, 173, 190, 239] [70, 76, 86, 1, 0, 0, 0, 0, 9]
      (by decide) (by decide) (by decide)
    rw [h]
    exact parse_flv_header_signature_only.1
  · exact parse_flv_header_signature_only.2.1 _ (by decide) (by decide)

/-- C3 (counterexample): status 201 is in the 2xx range, yet the session's
gate `if response.status != 200: return` treats it as a failure: with a
chunk available on the stream, nothing is recorded and the metrics stay at
their initial value. -/
theorem status_201_rejected :
    200 ≤ 201 ∧ 201 < 300 ∧
    client_session 201 [(100, 1)] 0 = StreamMetrics.init 0 ∧
    (StreamMetrics.init 0).packet_count = 0 := by decide

/-- C3 (amended): a session treats exactly status 200 as success; any other
status — including the rest of the 2xx range — returns before the read
loop, session-locally, with no chunk recorded; on status 200 the body
chunks are all fed to the accumulator. -/
theorem client_session_status_gate (status : Nat) (chunks : List Chunk) (start : ℚ) :
    (status ≠ 200 → client_session status chunks start = StreamMetrics.init start) ∧
    (status = 200 → client_session status chunks start =
      record_chunks (StreamMetrics.init start) chunks) := by
  constructor
  · intro h
    simp [client_session, h]
  · intro h
    simp [client_session, h]

/-- Witness for the amended C3: a 404 response records nothing. -/
theorem client_session_status_gate_witness :
    client_session 404 [(100, 1)] 0 = StreamMetrics.init 0 :=
  (client_session_status_gate 404 [(100, 1)] 0).1 (by decide)

/-- C9 (counterexample): the claim says every session applies a bounded
per-read timeout.  The configuration actually passed to
`aiohttp.ClientSession` at line 96 of `src/main.py` bounds neither the
per-read (`sock_read`) nor the total timeout: both are `None`, so a
stalled read is not terminated by any timeout. -/
theorem session_timeout_read_unbounded :
    session_timeout.sock_read = none ∧ session_timeout.total = none := by decide

/-- C9 (amended): the sessions bound only connection establishment (10
seconds); the total and per-read timeouts are left unbounded, so shutdown
after the stop flag is set can block for as long as one in-flight read
takes, with no read-timeout bound. -/
theorem session_timeout_fields :
    session_timeout.connect = some 10 ∧ session_timeout.total = none ∧
    session_timeout.sock_read = none := by decide

/-- From a state that has already seen a packet at a positive time, a chunk
sequence whose timestamps increase strictly starting above that time
appends exactly one latency and one bitrate sample per chunk. -/
theorem record_chunks_pos_gaps (chunks : List Chunk) (m : StreamMetrics)
    (hlast : 0 < m.last_packet_time)
    (hchain : gapsPositive (m.last_packet_time :: timesOf chunks) = true) :
    (record_chunks m chunks).latencies.length = m.latencies.length + chunks.length ∧
    (record_chunks m chunks).bitrates.length = m.bitrates.length + chunks.length := by
  induction chunks generalizing m with
  | nil => simp [record_chunks_nil]
  | cons c rest ih =>
    simp only [timesOf, List.map_cons, gapsPositive, Bool.and_eq_true,
      decide_eq_true_eq] at hchain
    obtain ⟨hgap, hrest⟩ := hchain
    have hpos : (0 : ℚ) < c.2 := by linarith
    have hlast2 : 0 < (process_flv_packets c.1 c.2 m).last_packet_time := by
      rw [process_last_packet_time]
      exact hpos
    have hchain2 :
        gapsPositive ((process_flv_packets c.1 c.2 m).last_packet_time :: timesOf rest)
          = true := by
      rw [process_last_packet_time]
      simpa [timesOf] using hrest
    have key := ih (process_flv_packets c.1 c.2 m) hlast2 hchain2
    have hlat : (process_flv_packets c.1 c.2 m).latencies.length
        = m.latencies.length + 1 := by
      rw [process_latencies, if_pos hlast]
      simp
    have hbit : (process_flv_packets c.1 c.2 m).bitrates.length
        = m.bitrates.length + 1 := by
      rw [process_bitrates, if_pos ⟨hlast, hgap⟩]
      simp
    rw [record_chunks_cons]
    refine ⟨?_, ?_⟩
    · rw [key.1, hlat]
      simp
      omega
    · rw [key.2, hbit]
      simp
      omega

/-- C4: with strictly increasing arrival timestamps, the final
`total_bytes` is the sum of the chunk sizes and the final `packet_count`
is the number of chunks, independently of the gap values. -/
theorem record_chunks_totals (chunks : List Chunk) (start : ℚ)
    (hinc : gapsPositive (timesOf chunks) = true) :
    (record_chunks (StreamMetrics.init start) chunks).total_bytes
      = (chunks.map Prod.fst).sum ∧
    (record_chunks (StreamMetrics.init start) chunks).packet_count = chunks.length := by
  refine ⟨?_, ?_⟩
  · rw [record_chunks_total_bytes]
    simp [StreamMetrics.init]
  · rw [record_chunks_packet_count]
    simp [StreamMetrics.init]

/-- C5: when all timestamps are positive wall-clock instants (as
`time.time()` guarantees) and every inter-arrival gap is strictly
positive, both sample lists end up with exactly `packet_count - 1`
entries. -/
theorem record_chunks_sample_lengths (chunks : List Chunk) (start : ℚ)
    (hts : ∀ c ∈ chunks, (0 : ℚ) < c.2)
    (hgaps : gapsPositive (timesOf chunks) = true) :
    (record_chunks (StreamMetrics.init start) chunks).latencies.length
      = (record_chunks (StreamMetrics.init start) chunks).packet_count - 1 ∧
    (record_chunks (StreamMetrics.init start) chunks).bitrates.length
      = (record_chunks (StreamMetrics.init start) chunks).packet_count - 1 := by
  cases chunks with
  | nil => simp [record_chunks_nil, StreamMetrics.init]
  | cons c rest =>
    have hpos : (0 : ℚ) < c.2 := hts c (by simp)
    have hlast2 : 0 < (process_flv_packets c.1 c.2 (StreamMetrics.init start)).last_packet_time := by
      rw [process_last_packet_time]
      exact hpos
    have hchain2 :
        gapsPositive ((process_flv_packets c.1 c.2 (StreamMetrics.init start)).last_packet_time
          :: timesOf rest) = true := by
      rw [process_last_packet_time]
      simpa [timesOf] using hgaps
    have key := record_chunks_pos_gaps rest _ hlast2 hchain2
    have hm1lat : (process_flv_packets c.1 c.2 (StreamMetrics.init start)).latencies = [] := by
      rw [process_latencies]
      simp [StreamMetrics.init]
    have hm1bit : (process_flv_packets c.1 c.2 (StreamMetrics.init start)).bitrates = [] := by
      rw [process_bitrates]
      simp [StreamMetrics.init]
    have hm1cnt : (process_flv_packets c.1 c.2 (StreamMetrics.init start)).packet_count = 1 := by
      rw [process_packet_count]
      simp [StreamMetrics.init]
    have hcnt := record_chunks_packet_count rest (process_flv_packets c.1 c.2 (StreamMetrics.init start))
    rw [record_chunks_cons]
    refine ⟨?_, ?_⟩
    · rw [key.1, hm1lat, hcnt, hm1cnt]
      simp
    · rw [key.2, hm1bit, hcnt, hm1cnt]
      simp

/-- One step preserves the accumulator invariant that the bitrate list is
never longer than the latency list: a latency sample is appended whenever
a previous packet exists, a bitrate sample only when additionally the gap
is strictly positive. -/
theorem process_bitrates_le_latencies (n : Nat) (t : ℚ) (m : StreamMetrics)
    (h : m.bitrates.length ≤ m.latencies.length) :
    (process_flv_packets n t m).bitrates.length
      ≤ (process_flv_packets n t m).latencies.length := by
  rw [process_bitrates, process_latencies]
  split_ifs with h₁ h₂ <;> simp_all <;> omega

/-- C10: after any sequence of chunks fed to a fresh accumulator, the
bitrate list is never longer than the latency list. -/
theorem record_chunks_bitrates_le_latencies (chunks : List Chunk) (start : ℚ) :
    (record_chunks (StreamMetrics.init start) chunks).bitrates.length
      ≤ (record_chunks (StreamMetrics.init start) chunks).latencies.length := by
  have main : ∀ (l : List Chunk) (m : StreamMetrics),
      m.bitrates.length ≤ m.latencies.length →
      (record_chunks m l).bitrates.length ≤ (record_chunks m l).latencies.length := by
    intro l
    induction l with
    | nil =>
      intro m h
      simpa [record_chunks_nil] using h
    | cons c rest ih =>
      intro m h
      rw [record_chunks_cons]
      exact ih _ (process_bitrates_le_latencies c.1 c.2 m h)
  exact main chunks _ (by simp [StreamMetrics.init])

/-- C1 (amended): when a chunk after the first arrives with a zero or
negative gap, its gap is still appended to `latencies`; only the bitrate
sample is skipped; recording then continues normally, so a following chunk
with a strictly positive gap appends to both lists. -/
theorem nonpositive_gap_latency_only (m : StreamMetrics) (n : Nat) (t : ℚ)
    (hprev : 0 < m.last_packet_time) (hgap : t - m.last_packet_time ≤ 0) (hpos : 0 < t) :
    (process_flv_packets n t m).latencies = m.latencies ++ [t - m.last_packet_time] ∧
    (process_flv_packets n t m).bitrates = m.bitrates ∧
    ∀ n₂ : Nat, ∀ t₂ : ℚ, 0 < t₂ - t →
      (process_flv_packets n₂ t₂ (process_flv_packets n t m)).latencies =
        m.latencies ++ [t - m.last_packet_time, t₂ - t] ∧
      (process_flv_packets n₂ t₂ (process_flv_packets n t m)).bitrates =
        m.bitrates ++ [(n₂ * 8 : ℚ) / (t₂ - t)] := by
  have h1 : (process_flv_packets n t m).latencies
      = m.latencies ++ [t - m.last_packet_time] := by
    rw [process_latencies, if_pos hprev]
  have h2 : (process_flv_packets n t m).bitrates = m.bitrates := by
    rw [process_bitrates, if_neg]
    rintro ⟨-, hlt⟩
    linarith
  refine ⟨h1, h2, ?_⟩
  intro n₂ t₂ hgap₂
  have hlast : (process_flv_packets n t m).last_packet_time = t :=
    process_last_packet_time n t m
  refine ⟨?_, ?_⟩
  · rw [process_latencies, hlast, if_pos hpos, h1]
    simp
  · rw [process_bitrates, hlast, if_pos ⟨hpos, hgap₂⟩, h2]

/-- Closed form of the reporting loop: the totals are the sums over all
clients, the two sample accumulators are the concatenations of the
clients' sample lists in iteration order, one report line is emitted per
client, and every client-metrics entry is passed through unchanged. -/
theorem foldl_report_loop_step (cms : List (Nat × StreamMetrics)) (a : ReportLoopAcc) :
    cms.foldl report_loop_step a =
      { total_bytes := a.total_bytes + (cms.map fun p => p.2.total_bytes).sum
        total_packets := a.total_packets + (cms.map fun p => p.2.packet_count).sum
        all_bitrates := a.all_bitrates ++ (cms.map fun p => p.2.bitrates).flatten
        all_latencies := a.all_latencies ++ (cms.map fun p => p.2.latencies).flatten
        sessions := a.sessions ++ cms.map fun p => session_report p.1 p.2
        seen := a.seen ++ cms } := by
  induction cms generalizing a with
  | nil => simp
  | cons c rest ih =>
    rw [List.foldl_cons, ih]
    simp [report_loop_step, Nat.add_assoc]

/-- C7: the overall averages reported by `print_statistics` are the means
of the concatenation of all sessions' `bitrates` sequences and of all
sessions' `latencies` sequences respectively — the union of samples, not a
mean of per-session means — with `none` as the safe outcome when the
concatenation is empty. -/
theorem print_statistics_overall_means (n : Nat) (cms : List (Nat × StreamMetrics)) :
    (print_statistics n cms).1.overall.avg_bitrate = specOverallAvgBitrate cms ∧
    (print_statistics n cms).1.overall.avg_latency = specOverallAvgLatency cms := by
  unfold print_statistics specOverallAvgBitrate specOverallAvgLatency listMean
  rw [foldl_report_loop_step]
  simp

/-- C8: the reporter is idempotent and side-effect-free with respect to the
metrics state: the client-metrics state it hands back is exactly the one it
received (no accumulator field is mutated), and a second invocation over
that state produces the identical report. -/
theorem print_statistics_idempotent (n : Nat) (cms : List (Nat × StreamMetrics)) :
    (print_statistics n cms).2 = cms ∧
    (print_statistics n (print_statistics n cms).2).1 = (print_statistics n cms).1 := by
  have hseen : (print_statistics n cms).2 = cms := by
    unfold print_statistics
    rw [foldl_report_loop_step]
    simp
  exact ⟨hseen, by rw [hseen]⟩

section
attribute [local semireducible] Rat.sub Rat.add Rat.mul Rat.inv

/-- C1 (counterexample): feeding a fresh accumulator two chunks that arrive
at the same timestamp (gap = 0), the second chunk does contribute a
latency sample — the gap 0 is appended to `latencies` — while only the
bitrate sample is skipped; the claim that it contributes neither is false. -/
theorem zero_gap_still_records_latency :
    (record_chunks (StreamMetrics.init 0) [(100, 1), (50, 1)]).latencies = [0] ∧
    (record_chunks (StreamMetrics.init 0) [(100, 1), (50, 1)]).bitrates = [] := by decide

/-- Witness for the amended C1: a state with one packet seen at time 1
receives a 50-byte chunk also at time 1 (gap 0): the latency list becomes
`[0]` and the bitrate list stays empty; a following 70-byte chunk at time
2 (gap 1) then yields the bitrate sample 560. -/
theorem nonpositive_gap_latency_only_witness :
    (process_flv_packets 50 1 ⟨100, 1, 0, 1, [], []⟩).latencies = [0] ∧
    (process_flv_packets 50 1 ⟨100, 1, 0, 1, [], []⟩).bitrates = [] ∧
    (process_flv_packets 70 2 (process_flv_packets 50 1 ⟨100, 1, 0, 1, [], []⟩)).bitrates
      = [560] := by
  have h := nonpositive_gap_latency_only ⟨100, 1, 0, 1, [], []⟩ 50 1
    (by decide) (by decide) (by decide)
  refine ⟨?_, h.2.1, ?_⟩
  · rw [h.1]
    decide
  · rw [(h.2.2 70 2 (by decide)).2]
    decide

/-- Witness for C4 on three chunks of sizes 100, 50, 25 at strictly
increasing times. -/
theorem record_chunks_totals_witness :
    (record_chunks (StreamMetrics.init 5) [(100, 1), (50, 2), (25, 4)]).total_bytes = 175 ∧
    (record_chunks (StreamMetrics.init 5) [(100, 1), (50, 2), (25, 4)]).packet_count = 3 := by
  have h := record_chunks_totals [(100, 1), (50, 2), (25, 4)] 5 (by decide)
  exact ⟨by rw [h.1]; decide, by rw [h.2]; decide⟩

/-- Witness for C5 on three chunks at positive, strictly increasing
times: both sample lists have `packet_count - 1 = 2` entries. -/
theorem record_chunks_sample_lengths_witness :
    (record_chunks (StreamMetrics.init 0) [(10, 1), (20, 2), (30, 4)]).latencies.length = 2 ∧
    (record_chunks (StreamMetrics.init 0) [(10, 1), (20, 2), (30, 4)]).bitrates.length = 2 := by
  have h := record_chunks_sample_lengths [(10, 1), (20, 2), (30, 4)] 0
    (by decide) (by decide)
  have hc : (record_chunks (StreamMetrics.init 0) [(10, 1), (20, 2), (30, 4)]).packet_count
      = 3 := by decide
  exact ⟨by rw [h.1, hc], by rw [h.2, hc]⟩

end

end FLVTester
